import Mathlib

/-!
# withlockfile: a shallow embedding of `src/withlockfile.cpp`

The program opens a lock file, takes an exclusive lock on it (retrying a
transient error), spawns a child command suspended, binds it to a job object,
resumes it, waits for it, and releases the lock.

The embedding is a pure function `main argv env` where `env` records how the
operating system answers each call of one run.  The thread-local last-error
value, the sequence of operating-system calls and the text written to standard
error are threaded explicitly through a `World`.

Modelling conventions

* `DWORD` values are natural numbers reduced modulo `2 ^ 32`.
* `argc` is `argv.length` (the C runtime passes `argc` strings).
* A `std::string` is a Lean `String`; one `Char` stands for one `char`.
* `GetLastError` reads `World.lastError`; it has no effect and is not recorded
  in the trace.  Every other call into the operating system is recorded.
* `ZeroMemory` and the operations on `std::string` are not calls into the
  operating system and leave no entry in the trace.
* Memory exhaustion (`std::bad_alloc`) is not modelled, so the handler
  `catch ( const std::exception & )` is never entered.
-/

namespace WithLockFile

/-! ## Constants of the Windows headers -/

/-- Number of values of a `DWORD`. -/
def DWORD_SIZE : Nat := 2 ^ 32

/-- Value of `ERROR_ACCESS_DENIED` in `winerror.h`. -/
def ERROR_ACCESS_DENIED : Nat := 5

/-- Value of `ERROR_NETNAME_DELETED` in `winerror.h`. -/
def ERROR_NETNAME_DELETED : Nat := 64

/-- Value of `CREATE_SUSPENDED` in `winbase.h`. -/
def CREATE_SUSPENDED : Nat := 4

/-- Value of `JOB_OBJECT_LIMIT_KILL_ON_JOB_CLOSE` in `winnt.h`. -/
def JOB_OBJECT_LIMIT_KILL_ON_JOB_CLOSE : Nat := 8192

/-! ## The error class -/

/-- The class `Win32Error`: the `what` text and the `errorCode` member. -/
structure Win32Error where
  what : String
  errorCode : Nat
  deriving DecidableEq, Repr

/-! ## String helpers -/

/-- The call `s.find_first_of( chars )`: index of the first character of `s`
that occurs in `chars`, counted from `pos`; `none` stands for `npos`. -/
def findFirstOfFrom (chars : List Char) : List Char → Nat → Option Nat
  | [], _ => none
  | c :: rest, pos => if chars.contains c then some pos else findFirstOfFrom chars rest (pos + 1)

/-- The call `s.find_first_of( chars )` on strings. -/
def find_first_of (s chars : String) : Option Nat :=
  findFirstOfFrom chars.data s.data 0

/-- The comparison `_stricmp( a, b ) != 0`: the strings differ after mapping
both to lower case. -/
def stricmpNe (a b : String) : Bool :=
  a.data.map Char.toLower != b.data.map Char.toLower

/-- Function `enforceExeExtension` (lines 19-28). -/
def enforceExeExtension (s : String) : String :=
  let exe := s
  let len := exe.length
  if len < 4 || stricmpNe (String.mk (exe.data.drop (len - 4))) ".exe" then exe ++ ".exe" else exe

/-- Function `quoteArgument` (lines 30-40). -/
def quoteArgument (arg : String) : String :=
  let space := find_first_of arg " \t"
  if space != none then
    let s := "\""
    let s := s ++ arg
    let s := s ++ "\""
    s
  else arg

/-! ## The operating system as seen by one run -/

/-- The two handles that `CloseHandle` is applied to. -/
inductive HandleName where
  | f
  | jobObject
  deriving DecidableEq, Repr

/-- The three standard handles asked for with `GetStdHandle`. -/
inductive StdHandle where
  | STD_ERROR_HANDLE
  | STD_OUTPUT_HANDLE
  | STD_INPUT_HANDLE
  deriving DecidableEq, Repr

/-- A call into the operating system together with the arguments that matter. -/
inductive Call where
  | CreateFileA (lpFileName : String)
  | LockFileEx
  | PathSearchAndQualifyA (pcszPath : String)
  | GetStdHandle (nStdHandle : StdHandle)
  | CreateProcessA (lpApplicationName lpCommandLine : String) (dwCreationFlags : Nat)
  | CreateJobObject
  | SetInformationJobObject (limitFlags : Nat)
  | CloseHandle (h : HandleName)
  | AssignProcessToJobObject
  | ResumeThread
  | WaitForSingleObject
  | GetExitCodeProcess
  | UnlockFileEx
  | FormatMessageA (dwMessageId : Nat)
  deriving DecidableEq, Repr

/-- One entry of the trace: the call, whether its return value was the one the
source treats as success, and the last-error value once it had returned. -/
structure Event where
  call : Call
  ok : Bool
  lastError : Nat
  deriving DecidableEq, Repr

/-- The answer of the operating system to one call: `ok` tells whether the
return value is the one the source treats as success, `setsLastError` is the
value the call stores with `SetLastError`, if it stores one. -/
structure Reply where
  ok : Bool
  setsLastError : Option Nat
  deriving DecidableEq, Repr

/-- Everything the operating system answers during one run. -/
structure Env where
  /-- last-error value of the thread when `main` starts -/
  initialLastError : Nat
  /-- fails when it returns `INVALID_HANDLE_VALUE` -/
  createFileA : Reply
  /-- answer to the call made in iteration `i` of the loop -/
  lockFileEx : Nat → Reply
  pathSearchAndQualifyA : Reply
  /-- content of `buf` after a successful `PathSearchAndQualifyA` -/
  qualifiedPath : String
  getStdHandle : StdHandle → Reply
  createProcessA : Reply
  /-- fails when it returns `NULL` -/
  createJobObject : Reply
  setInformationJobObject : Reply
  /-- answer to `CloseHandle( jobObject )` -/
  closeHandleJob : Reply
  assignProcessToJobObject : Reply
  /-- fails when it returns `-1` -/
  resumeThread : Reply
  /-- fails when it returns `WAIT_FAILED` -/
  waitForSingleObject : Reply
  getExitCodeProcess : Reply
  /-- value stored in `exitCode` by a successful `GetExitCodeProcess` -/
  exitCode : Nat
  unlockFileEx : Reply
  /-- answer to `CloseHandle( f )` -/
  closeHandleFile : Reply
  formatMessageA : Reply
  /-- text stored in `buf` by a successful `FormatMessageA` -/
  message : String

/-- The observable state of a run. -/
structure World where
  lastError : Nat
  trace : List Event
  stderr : String
  deriving DecidableEq, Repr

/-- Perform one call: store the last-error value the call sets, if any, and
append the call to the trace. -/
def oscall (c : Call) (r : Reply) (w : World) : World :=
  let le := match r.setsLastError with
    | some e => e % DWORD_SIZE
    | none => w.lastError
  { w with lastError := le, trace := w.trace ++ [⟨c, r.ok, le⟩] }

/-- The call `::GetLastError()`. -/
def GetLastError (w : World) : Nat := w.lastError

/-- Writing text to `std::cerr`. -/
def cerr (s : String) (w : World) : World :=
  { w with stderr := w.stderr ++ s }

/-- The conversion of a `DWORD` to the `int` returned by `main`. -/
def toInt32 (n : Nat) : Int :=
  if n % DWORD_SIZE < 2 ^ 31 then ((n % DWORD_SIZE : Nat) : Int)
  else ((n % DWORD_SIZE : Nat) : Int) - (DWORD_SIZE : Int)

/-! ## The function `main` -/

/-- The loop `for ( int i = 0; i < 3; ++i )` of lines 71-81.  The first
argument counts the iterations that are left, `3 - i`.  The result is the
final value of `lockingSucceeded`, or the error thrown at line 79. -/
def lockLoop (env : Env) : Nat → Nat → World → World × Except Win32Error Bool
  | 0, _, w => (w, .ok false)
  | n + 1, i, w =>
    let w := oscall .LockFileEx (env.lockFileEx i) w
    if (env.lockFileEx i).ok then (w, .ok true)
    else
      let errorCode := GetLastError w
      if errorCode != ERROR_NETNAME_DELETED then (w, .error ⟨"LockFileEx", errorCode⟩)
      else lockLoop env n (i + 1) w

/-- The command line built at lines 101-107. -/
def buildCommandLine (executable : String) (argv : List String) : String :=
  (argv.drop 3).foldl (fun commandLine a => commandLine.push ' ' ++ quoteArgument a)
    (quoteArgument executable)

/-- Lines 109-176: from the creation of the child process to `return 0`. -/
def launchAndWait (env : Env) (executable commandLine : String) (w : World) :
    World × Except Win32Error Int :=
  let w := oscall (.GetStdHandle .STD_ERROR_HANDLE) (env.getStdHandle .STD_ERROR_HANDLE) w
  let w := oscall (.GetStdHandle .STD_OUTPUT_HANDLE) (env.getStdHandle .STD_OUTPUT_HANDLE) w
  let w := oscall (.GetStdHandle .STD_INPUT_HANDLE) (env.getStdHandle .STD_INPUT_HANDLE) w
  let w := oscall (.CreateProcessA executable commandLine CREATE_SUSPENDED) env.createProcessA w
  if !env.createProcessA.ok then (w, .error ⟨"CreateProcessA", GetLastError w⟩) else
  let w := oscall .CreateJobObject env.createJobObject w
  if !env.createJobObject.ok then (w, .error ⟨"CreateJobObject", GetLastError w⟩) else
  let w := oscall (.SetInformationJobObject JOB_OBJECT_LIMIT_KILL_ON_JOB_CLOSE)
    env.setInformationJobObject w
  if !env.setInformationJobObject.ok then
    let w := oscall (.CloseHandle .jobObject) env.closeHandleJob w
    (w, .error ⟨"SetInformationJobObject", GetLastError w⟩)
  else
  let w := oscall .AssignProcessToJobObject env.assignProcessToJobObject w
  if !env.assignProcessToJobObject.ok && GetLastError w != ERROR_ACCESS_DENIED then
    (w, .error ⟨"AssignProcessToJobObject", GetLastError w⟩)
  else
  let w := oscall .ResumeThread env.resumeThread w
  if !env.resumeThread.ok then (w, .error ⟨"ResumeThread", GetLastError w⟩) else
  let w := oscall .WaitForSingleObject env.waitForSingleObject w
  if !env.waitForSingleObject.ok then (w, .error ⟨"WaitForSingleObject", GetLastError w⟩) else
  let w := oscall .GetExitCodeProcess env.getExitCodeProcess w
  if !env.getExitCodeProcess.ok then (w, .error ⟨"GetExitCodeProcess", GetLastError w⟩) else
  let _exitCode := env.exitCode % DWORD_SIZE
  let w := oscall .UnlockFileEx env.unlockFileEx w
  if !env.unlockFileEx.ok then (w, .error ⟨"UnlockFileEx", GetLastError w⟩) else
  let w := oscall (.CloseHandle .f) env.closeHandleFile w
  if !env.closeHandleFile.ok then (w, .error ⟨"CloseHandle", GetLastError w⟩) else
  (w, .ok 0)

/-- The `try` block of `main` after the usage check (lines 50-176). -/
def tryBlock (env : Env) (argv : List String) (w : World) : World × Except Win32Error Int :=
  let w := oscall (.CreateFileA (argv.getD 1 "")) env.createFileA w
  if !env.createFileA.ok then (w, .error ⟨"CreateFileA", GetLastError w⟩) else
  match lockLoop env 3 0 w with
  | (w, .error e) => (w, .error e)
  | (w, .ok lockingSucceeded) =>
    if !lockingSucceeded then (w, .error ⟨"LockFileEx", ERROR_NETNAME_DELETED⟩) else
    let executable := enforceExeExtension (argv.getD 2 "")
    let w := oscall (.PathSearchAndQualifyA executable) env.pathSearchAndQualifyA w
    if !env.pathSearchAndQualifyA.ok then
      (w, .error ⟨"PathSearchAndQualifyA", GetLastError w⟩)
    else
    let executable := env.qualifiedPath
    let commandLine := buildCommandLine executable argv
    launchAndWait env executable commandLine w

/-- The handler `catch ( const Win32Error &e )` (lines 177-205). -/
def catchWin32Error (env : Env) (e : Win32Error) (w : World) : World × Int :=
  let w := oscall (.FormatMessageA e.errorCode) env.formatMessageA w
  let buf := if env.formatMessageA.ok then env.message else "0"
  let len := buf.length
  let buf :=
    if len > 1 && buf.data[len - 2]? == some '\r'
        && buf.data[len - 1]? == some '\n' then
      String.mk (buf.data.take (len - 2))
    else buf
  let w := cerr ("error: " ++ e.what ++ " failed: " ++ buf ++ " (code "
    ++ toString e.errorCode ++ ")" ++ "\n") w
  (w, toInt32 e.errorCode)

/-- The usage text of line 46. -/
def usageText : String := "usage: withlockfile <lockfile> <command> [args..]\n"

/-- What a run of `main` leaves behind: the final world, the `Win32Error`
that was thrown, if one was, and the value `main` returns. -/
structure Outcome where
  world : World
  raised : Option Win32Error
  exit : Int
  deriving DecidableEq, Repr

/-- The world when `main` starts: no call made yet, nothing written. -/
def startWorld (env : Env) : World := ⟨env.initialLastError % DWORD_SIZE, [], ""⟩

/-- Function `main` (lines 42-210); `argc` is `argv.length`. -/
def main (argv : List String) (env : Env) : Outcome :=
  let w : World := startWorld env
  let argc := argv.length
  if argc < 3 then
    let w := cerr usageText w
    ⟨w, none, 1⟩
  else
    match tryBlock env argv w with
    | (w, .ok r) => ⟨w, none, r⟩
    | (w, .error e) =>
      let (w, r) := catchWin32Error env e w
      ⟨w, some e, r⟩

/-- The trace of calls of a run. -/
def run (argv : List String) (env : Env) : List Event := (main argv env).world.trace

/-! ## Vocabulary for statements about traces -/

/-- Is the call a `CreateProcessA`? -/
def Call.isCreateProcessA : Call → Bool
  | .CreateProcessA _ _ _ => true
  | _ => false

/-- Is the call a `FormatMessageA`? -/
def Call.isFormatMessageA : Call → Bool
  | .FormatMessageA _ => true
  | _ => false

/-- The event releases the lock: `UnlockFileEx` or `CloseHandle( f )`. -/
def Event.isRelease (e : Event) : Bool :=
  e.call == .UnlockFileEx || e.call == .CloseHandle .f

/-- The event belongs to the life of the child: its creation, its resumption,
the wait for it, or the retrieval of its exit status. -/
def Event.inChildRegion (e : Event) : Bool :=
  e.call.isCreateProcessA || e.call == .ResumeThread || e.call == .WaitForSingleObject
    || e.call == .GetExitCodeProcess

/-- Some `LockFileEx` attempt among the events succeeded. -/
def lockHeld (t : List Event) : Bool := t.any (fun l => l.call == .LockFileEx && l.ok)

/-- No event of the list releases the lock. -/
def noRelease (t : List Event) : Bool := t.all (fun r => !r.isRelease)

/-- Some `WaitForSingleObject` among the events returned without failure. -/
def waited (t : List Event) : Bool := t.any (fun x => x.call == .WaitForSingleObject && x.ok)

/-- Some `GetExitCodeProcess` among the events succeeded. -/
def statusRetrieved (t : List Event) : Bool :=
  t.any (fun x => x.call == .GetExitCodeProcess && x.ok)

/-- The event is a successful `CreateProcessA` whose creation flags are
`CREATE_SUSPENDED`. -/
def Event.isSuspendedSpawn (e : Event) : Bool :=
  match e.call with
  | .CreateProcessA _ _ flags => flags == CREATE_SUSPENDED && e.ok
  | _ => false

/-- Some process among the events was created suspended. -/
def createdSuspended (t : List Event) : Bool := t.any Event.isSuspendedSpawn

/-- Some `CreateJobObject` among the events succeeded. -/
def groupCreated (t : List Event) : Bool := t.any (fun x => x.call == .CreateJobObject && x.ok)

/-- Some `SetInformationJobObject` with the kill-on-close limit succeeded. -/
def groupConfigured (t : List Event) : Bool :=
  t.any (fun x => x.call == .SetInformationJobObject JOB_OBJECT_LIMIT_KILL_ON_JOB_CLOSE && x.ok)

/-- Some `AssignProcessToJobObject` among the events succeeded: the child is
a member of the job. -/
def memberOfGroup (t : List Event) : Bool :=
  t.any (fun x => x.call == .AssignProcessToJobObject && x.ok)

/-- Some `AssignProcessToJobObject` among the events succeeded or failed with
`ERROR_ACCESS_DENIED`. -/
def attachedOrDenied (t : List Event) : Bool :=
  t.any (fun x => x.call == .AssignProcessToJobObject
    && (x.ok || x.lastError == ERROR_ACCESS_DENIED))

/-- Number of `LockFileEx` calls among the events. -/
def lockAttempts (t : List Event) : Nat := t.countP (fun x => x.call == .LockFileEx)

/-- Some `CreateProcessA` call occurs among the events. -/
def spawned (t : List Event) : Bool := t.any (fun x => x.call.isCreateProcessA)

/-- Some `CreateProcessA` among the events was given the executable `exe`, the
command line `cl` and the flag `CREATE_SUSPENDED`. -/
def spawnedWith (exe cl : String) (t : List Event) : Bool :=
  t.any (fun x => x.call == .CreateProcessA exe cl CREATE_SUSPENDED)

/-- A property `P pre e` holds at every position of the trace, `pre` being the
events before the event `e`. -/
def TraceOK (P : List Event → Event → Prop) (t : List Event) : Prop :=
  ∀ pre e post, t = pre ++ e :: post → P pre e

/-- The lock is held over the protected region: an event of the life of the
child has a successful lock attempt and no release before it; a release has the
return of the wait and the retrieval of the exit status before it. -/
def LockHeldAt (pre : List Event) (e : Event) : Prop :=
  (e.inChildRegion = true → lockHeld pre = true ∧ noRelease pre = true) ∧
  (e.isRelease = true → waited pre = true ∧ statusRetrieved pre = true)

/-- The ordering before a resume as the specification words it: the child was
created suspended, the job was created and configured, and the child is a
member of the job. -/
def GroupBoundAt (pre : List Event) (e : Event) : Prop :=
  e.call = .ResumeThread →
    createdSuspended pre = true ∧ groupCreated pre = true ∧ groupConfigured pre = true
      ∧ memberOfGroup pre = true

/-- The ordering before a resume as the code establishes it: the attachment
was attempted and either succeeded or was refused with `ERROR_ACCESS_DENIED`. -/
def GroupAttemptedAt (pre : List Event) (e : Event) : Prop :=
  e.call = .ResumeThread →
    createdSuspended pre = true ∧ groupCreated pre = true ∧ groupConfigured pre = true
      ∧ attachedOrDenied pre = true

/-- The call failed and stored `code` as the last-error value. -/
def failsWith (r : Reply) (code : Nat) : Prop :=
  r.ok = false ∧ r.setsLastError = some code

/-- The token wrapped in one leading and one trailing double quote. -/
def wrapInQuotes (token : String) : String := "\"" ++ token ++ "\""

/-- The sentence of the specification about `quoteArgument`, for one token,
with "whitespace character" read as `Char.isWhitespace`. -/
def QuotesIffWhitespace (token : String) : Prop :=
  (quoteArgument token = wrapInQuotes token ↔ ∃ c ∈ token.data, c.isWhitespace = true) ∧
  (quoteArgument token = token ↔ ¬ ∃ c ∈ token.data, c.isWhitespace = true)

/-- The call succeeded, or it stored a last-error code that is not 0. -/
def Reply.okOrNonzero (r : Reply) : Bool :=
  r.ok || match r.setsLastError with
    | some c => c % DWORD_SIZE != 0
    | none => false

/-- Every call of the run whose failure raises an error either succeeds or
stores a last-error code that is not 0.  Nothing is asked of
`SetInformationJobObject` and of the `CloseHandle( jobObject )` after it. -/
def FailuresStoreNonzero (env : Env) : Prop :=
  env.createFileA.okOrNonzero = true ∧
  (∀ i, i < 3 → (env.lockFileEx i).okOrNonzero = true) ∧
  env.pathSearchAndQualifyA.okOrNonzero = true ∧
  env.createProcessA.okOrNonzero = true ∧
  env.createJobObject.okOrNonzero = true ∧
  env.assignProcessToJobObject.okOrNonzero = true ∧
  env.resumeThread.okOrNonzero = true ∧
  env.waitForSingleObject.okOrNonzero = true ∧
  env.getExitCodeProcess.okOrNonzero = true ∧
  env.unlockFileEx.okOrNonzero = true ∧
  env.closeHandleFile.okOrNonzero = true

/-- The last call recorded in the world failed and left `code` as the
last-error value. -/
def EndsWithFailure (w : World) (code : Nat) : Prop :=
  ∃ pre last, w.trace = pre ++ [last] ∧ last.ok = false ∧ last.lastError = code

/-! ## Concrete runs -/

/-- A call that succeeds and leaves the last-error value alone. -/
def okReply : Reply := ⟨true, none⟩

/-- A run in which every call succeeds and the child exits with `n`.  The lock
file exists already, so `CreateFileA` stores `ERROR_ALREADY_EXISTS`. -/
def envAllOk (n : Nat) : Env :=
  { initialLastError := 0
    createFileA := ⟨true, some 183⟩
    lockFileEx := fun _ => okReply
    pathSearchAndQualifyA := okReply
    qualifiedPath := "C:\\tools\\build.exe"
    getStdHandle := fun _ => okReply
    createProcessA := okReply
    createJobObject := okReply
    setInformationJobObject := okReply
    closeHandleJob := okReply
    assignProcessToJobObject := okReply
    resumeThread := okReply
    waitForSingleObject := okReply
    getExitCodeProcess := okReply
    exitCode := n
    unlockFileEx := okReply
    closeHandleFile := okReply
    formatMessageA := okReply
    message := "The operation failed.\r\n" }

/-- A command line with the lock file, the command and two arguments. -/
def argvExample : List String := ["withlockfile", "build.lock", "build", "my project", "-v"]

/-- A run in which `AssignProcessToJobObject` is refused with
`ERROR_ACCESS_DENIED`. -/
def envAccessDenied : Env :=
  { envAllOk 0 with assignProcessToJobObject := ⟨false, some ERROR_ACCESS_DENIED⟩ }

/-- A run in which the three lock attempts fail with `ERROR_NETNAME_DELETED`. -/
def envLockExhausted : Env :=
  { envAllOk 0 with lockFileEx := fun _ => ⟨false, some ERROR_NETNAME_DELETED⟩ }

/-- A run in which the first two lock attempts fail with
`ERROR_NETNAME_DELETED` and the third succeeds. -/
def envLockThird : Env :=
  { envAllOk 0 with
    lockFileEx := fun i => if i < 2 then ⟨false, some ERROR_NETNAME_DELETED⟩ else okReply }

/-- A run in which the second lock attempt fails with `ERROR_LOCK_VIOLATION`
(33) after a first transient failure. -/
def envLockViolation : Env :=
  { envAllOk 0 with
    lockFileEx := fun i => if i < 1 then ⟨false, some ERROR_NETNAME_DELETED⟩ else ⟨false, some 33⟩ }

/-- A run in which the lock file is created afresh, so that `CreateFileA`
stores 0 as the last-error value, and `PathSearchAndQualifyA` fails without
storing one. -/
def envPathNotFound : Env :=
  { envAllOk 0 with createFileA := ⟨true, some 0⟩, pathSearchAndQualifyA := ⟨false, none⟩ }

/-- A run in which `SetInformationJobObject` fails with
`ERROR_INVALID_PARAMETER` (87) and the `CloseHandle` that follows succeeds and
resets the last-error value to 0. -/
def envConfigureFails : Env :=
  { envAllOk 0 with
    setInformationJobObject := ⟨false, some 87⟩
    closeHandleJob := ⟨true, some 0⟩ }

/-! ## Traces: general facts -/

theorem traceOK_nil (P : List Event → Event → Prop) : TraceOK P [] := by
  intro pre e post h
  cases pre <;> simp at h

theorem traceOK_snoc (P : List Event → Event → Prop) (t : List Event) (x : Event) :
    TraceOK P (t ++ [x]) ↔ TraceOK P t ∧ P t x := by
  constructor
  · intro h
    refine ⟨?_, h t x [] rfl⟩
    intro pre e post ht
    exact h pre e (post ++ [x]) (by simp [ht])
  · rintro ⟨h1, h2⟩ pre e post ht
    rcases List.eq_nil_or_concat post with rfl | ⟨post2, y, rfl⟩
    · obtain ⟨rfl, h3⟩ := List.append_inj' ht (by simp)
      simp at h3
      subst h3
      exact h2
    · rw [List.concat_eq_append] at ht
      have h4 : t ++ [x] = (pre ++ e :: post2) ++ [y] := by simpa using ht
      exact h1 pre e post2 (List.append_inj' h4 (by simp)).1

theorem traceOK_append (P : List Event → Event → Prop) (t evs : List Event)
    (h : TraceOK P t) (hev : ∀ e ∈ evs, ∀ pre, P pre e) : TraceOK P (t ++ evs) := by
  induction evs using List.reverseRecOn with
  | nil => simpa using h
  | append_singleton l a ih =>
    rw [← List.append_assoc, traceOK_snoc]
    exact ⟨ih (fun e he => hev e (by simp [he])), hev a (by simp) _⟩

theorem lockHeld_snoc (t : List Event) (x : Event) :
    lockHeld (t ++ [x]) = (lockHeld t || (x.call == .LockFileEx && x.ok)) := by
  simp [lockHeld]

theorem noRelease_snoc (t : List Event) (x : Event) :
    noRelease (t ++ [x]) = (noRelease t && !x.isRelease) := by
  simp [noRelease]

theorem waited_snoc (t : List Event) (x : Event) :
    waited (t ++ [x]) = (waited t || (x.call == .WaitForSingleObject && x.ok)) := by
  simp [waited]

theorem statusRetrieved_snoc (t : List Event) (x : Event) :
    statusRetrieved (t ++ [x]) = (statusRetrieved t || (x.call == .GetExitCodeProcess && x.ok)) := by
  simp [statusRetrieved]

theorem createdSuspended_snoc (t : List Event) (x : Event) :
    createdSuspended (t ++ [x]) = (createdSuspended t || x.isSuspendedSpawn) := by
  simp [createdSuspended]

theorem groupCreated_snoc (t : List Event) (x : Event) :
    groupCreated (t ++ [x]) = (groupCreated t || (x.call == .CreateJobObject && x.ok)) := by
  simp [groupCreated]

theorem groupConfigured_snoc (t : List Event) (x : Event) :
    groupConfigured (t ++ [x]) = (groupConfigured t ||
      (x.call == .SetInformationJobObject JOB_OBJECT_LIMIT_KILL_ON_JOB_CLOSE && x.ok)) := by
  simp [groupConfigured]

theorem attachedOrDenied_snoc (t : List Event) (x : Event) :
    attachedOrDenied (t ++ [x]) = (attachedOrDenied t || (x.call == .AssignProcessToJobObject
      && (x.ok || x.lastError == ERROR_ACCESS_DENIED))) := by
  simp [attachedOrDenied]

theorem lockAttempts_snoc (t : List Event) (x : Event) :
    lockAttempts (t ++ [x]) = lockAttempts t + (if x.call = .LockFileEx then 1 else 0) := by
  simp [lockAttempts, List.countP_append, List.countP_cons]

theorem spawnedWith_snoc (exe cl : String) (t : List Event) (x : Event) :
    spawnedWith exe cl (t ++ [x]) = (spawnedWith exe cl t ||
      (x.call == .CreateProcessA exe cl CREATE_SUSPENDED)) := by
  simp [spawnedWith]

/-! ## One call -/

theorem oscall_trace (c : Call) (r : Reply) (w : World) :
    (oscall c r w).trace = w.trace ++ [⟨c, r.ok, (oscall c r w).lastError⟩] := rfl

theorem oscall_lastError_lt (c : Call) (r : Reply) (w : World) (h : w.lastError < DWORD_SIZE) :
    (oscall c r w).lastError < DWORD_SIZE := by
  unfold oscall
  cases r.setsLastError with
  | none => simpa using h
  | some e => exact Nat.mod_lt _ (by decide)

/-! ## The lock loop -/

theorem lockLoop_spec (env : Env) (n i : Nat) (w : World) :
    ∃ evs, (lockLoop env n i w).1.trace = w.trace ++ evs ∧ (∀ e ∈ evs, e.call = .LockFileEx) ∧
      ((lockLoop env n i w).2 = .ok true → ∃ l ∈ evs, l.ok = true) := by
  induction n generalizing i w with
  | zero => exact ⟨[], by simp [lockLoop]⟩
  | succ n ih =>
    simp only [lockLoop]
    split
    · rename_i hok
      exact ⟨[⟨.LockFileEx, (env.lockFileEx i).ok, (oscall .LockFileEx (env.lockFileEx i) w).lastError⟩],
        by simp [oscall_trace], by simp, by simp [hok]⟩
    · split
      · exact ⟨[⟨.LockFileEx, (env.lockFileEx i).ok,
          (oscall .LockFileEx (env.lockFileEx i) w).lastError⟩],
          by simp [oscall_trace], by simp, by simp⟩
      · obtain ⟨evs, h1, h2, h3⟩ := ih (i + 1) (oscall .LockFileEx (env.lockFileEx i) w)
        refine ⟨⟨.LockFileEx, (env.lockFileEx i).ok,
          (oscall .LockFileEx (env.lockFileEx i) w).lastError⟩ :: evs, ?_, ?_, ?_⟩
        · rw [h1, oscall_trace]; simp
        · intro e he
          rcases List.mem_cons.1 he with rfl | he
          · rfl
          · exact h2 e he
        · intro hb
          obtain ⟨l, hl, hlo⟩ := h3 hb
          exact ⟨l, List.mem_cons_of_mem _ hl, hlo⟩

theorem lockLoop_lastError_lt (env : Env) (n i : Nat) (w : World) (h : w.lastError < DWORD_SIZE) :
    (lockLoop env n i w).1.lastError < DWORD_SIZE ∧
      ∀ e, (lockLoop env n i w).2 = .error e → e.errorCode < DWORD_SIZE := by
  induction n generalizing i w with
  | zero => simp [lockLoop, h]
  | succ n ih =>
    have hw := oscall_lastError_lt .LockFileEx (env.lockFileEx i) w h
    simp only [lockLoop]
    split
    · simp [hw]
    · split
      · simp only [GetLastError]
        refine ⟨hw, ?_⟩
        intro e he
        cases he
        exact hw
      · exact ih (i + 1) _ hw

/-! ## From the creation of the child to the end -/

theorem launchAndWait_lockHeld (env : Env) (exe cl : String) (w : World)
    (h0 : TraceOK LockHeldAt w.trace) (h1 : lockHeld w.trace = true)
    (h2 : noRelease w.trace = true) :
    TraceOK LockHeldAt (launchAndWait env exe cl w).1.trace := by
  unfold launchAndWait
  simp only []
  repeat' split
  all_goals simp only [oscall_trace, traceOK_snoc, LockHeldAt, lockHeld_snoc, noRelease_snoc,
    waited_snoc, statusRetrieved_snoc, h1, h2]
  all_goals simp [Call.isCreateProcessA, Event.isRelease, Event.inChildRegion, h0]
  all_goals simp_all

theorem launchAndWait_groupAttempted (env : Env) (exe cl : String) (w : World)
    (h0 : TraceOK GroupAttemptedAt w.trace) :
    TraceOK GroupAttemptedAt (launchAndWait env exe cl w).1.trace := by
  unfold launchAndWait
  simp only []
  repeat' split
  all_goals simp only [oscall_trace, traceOK_snoc, GroupAttemptedAt, createdSuspended_snoc,
    groupCreated_snoc, groupConfigured_snoc, attachedOrDenied_snoc]
  all_goals simp [Event.isSuspendedSpawn, h0]
  all_goals try simp_all [GetLastError]
  all_goals cases hA : env.assignProcessToJobObject.ok <;> simp_all

theorem launchAndWait_lockAttempts (env : Env) (exe cl : String) (w : World) :
    lockAttempts (launchAndWait env exe cl w).1.trace = lockAttempts w.trace := by
  unfold launchAndWait
  simp only []
  repeat' split
  all_goals simp only [oscall_trace, lockAttempts_snoc]
  all_goals simp

theorem launchAndWait_spawns (env : Env) (exe cl : String) (w : World) :
    spawnedWith exe cl (launchAndWait env exe cl w).1.trace = true := by
  unfold launchAndWait
  simp only []
  repeat' split
  all_goals simp only [oscall_trace, spawnedWith_snoc]
  all_goals simp

theorem launchAndWait_what (env : Env) (exe cl : String) (w : World) (e : Win32Error)
    (h : (launchAndWait env exe cl w).2 = .error e) : e.what ≠ "LockFileEx" := by
  revert h
  unfold launchAndWait
  simp only []
  repeat' split
  all_goals intro h
  all_goals cases h
  all_goals simp

theorem launchAndWait_errorCode_lt (env : Env) (exe cl : String) (w : World) (e : Win32Error)
    (hw : w.lastError < DWORD_SIZE) (h : (launchAndWait env exe cl w).2 = .error e) :
    e.errorCode < DWORD_SIZE := by
  revert h
  unfold launchAndWait
  simp only []
  repeat' split
  all_goals intro h
  all_goals cases h
  all_goals simp only [GetLastError]
  all_goals repeat (first | exact hw | apply oscall_lastError_lt)


theorem launchAndWait_ok_zero (env : Env) (exe cl : String) (w : World) (r : Int)
    (h : (launchAndWait env exe cl w).2 = .ok r) : r = 0 := by
  revert h
  unfold launchAndWait
  simp only []
  repeat' split
  all_goals intro h
  all_goals cases h
  all_goals rfl

theorem noRelease_append (a b : List Event) :
    noRelease (a ++ b) = (noRelease a && noRelease b) := by
  simp [noRelease]

theorem noRelease_of_lock (evs : List Event) (h : ∀ e ∈ evs, e.call = .LockFileEx) :
    noRelease evs = true := by
  simp only [noRelease, List.all_eq_true]
  intro x hx
  simp [Event.isRelease, h x hx]

/-! ## The `try` block -/

theorem tryBlock_traceOK (P : List Event → Event → Prop) (env : Env) (argv : List String)
    (w : World) (hw : w.trace = [])
    (hfile : ∀ pre e name, e.call = .CreateFileA name → P pre e)
    (hlock : ∀ pre e, e.call = .LockFileEx → P pre e)
    (hpath : ∀ pre e path, e.call = .PathSearchAndQualifyA path → P pre e)
    (hlaunch : ∀ exe cl w1, TraceOK P w1.trace → lockHeld w1.trace = true →
      noRelease w1.trace = true → TraceOK P (launchAndWait env exe cl w1).1.trace) :
    TraceOK P (tryBlock env argv w).1.trace := by
  have hfirst : TraceOK P (oscall (.CreateFileA (argv.getD 1 "")) env.createFileA w).trace := by
    rw [oscall_trace, traceOK_snoc, hw]
    exact ⟨traceOK_nil P, hfile _ _ _ rfl⟩
  obtain ⟨evs, h1, h2, h3⟩ :=
    lockLoop_spec env 3 0 (oscall (.CreateFileA (argv.getD 1 "")) env.createFileA w)
  have hloop : TraceOK P
      (lockLoop env 3 0 (oscall (.CreateFileA (argv.getD 1 "")) env.createFileA w)).1.trace := by
    rw [h1]
    exact traceOK_append P _ _ hfirst (fun e he pre => hlock pre e (h2 e he))
  unfold tryBlock
  simp only []
  split
  · exact hfirst
  · revert h1 h3 hloop
    generalize lockLoop env 3 0 (oscall (.CreateFileA (argv.getD 1 "")) env.createFileA w) = res
    intro h1 h3 hloop
    rcases res with ⟨w2, r⟩
    cases r with
    | error e => exact hloop
    | ok b =>
      cases b with
      | false => exact hloop
      | true =>
        simp only [Bool.not_true, Bool.false_eq_true, if_false]
        have hps : ∀ r : Reply, TraceOK P
            (oscall (.PathSearchAndQualifyA (enforceExeExtension (argv.getD 2 ""))) r w2).trace := by
          intro r
          rw [oscall_trace, traceOK_snoc]
          exact ⟨hloop, hpath _ _ _ rfl⟩
        split
        · exact hps _
        · apply hlaunch _ _ _ (hps _)
          · obtain ⟨l, hl, hlo⟩ := h3 rfl
            simp only [] at h1
            rw [oscall_trace, lockHeld_snoc, h1]
            simp only [lockHeld, List.any_append, List.any_eq_true, Bool.or_eq_true]
            exact Or.inl (Or.inr ⟨l, hl, by simp [h2 l hl, hlo]⟩)
          · simp only [] at h1
            rw [oscall_trace, noRelease_snoc, h1, noRelease_append, oscall_trace, noRelease_snoc,
              hw, noRelease_of_lock evs h2]
            simp [noRelease, Event.isRelease]

/-! ## The whole run -/

theorem run_traceOK (P : List Event → Event → Prop) (argv : List String) (env : Env)
    (hfile : ∀ pre e name, e.call = .CreateFileA name → P pre e)
    (hlock : ∀ pre e, e.call = .LockFileEx → P pre e)
    (hpath : ∀ pre e path, e.call = .PathSearchAndQualifyA path → P pre e)
    (hfmt : ∀ pre e code, e.call = .FormatMessageA code → P pre e)
    (hlaunch : ∀ exe cl w1, TraceOK P w1.trace → lockHeld w1.trace = true →
      noRelease w1.trace = true → TraceOK P (launchAndWait env exe cl w1).1.trace) :
    TraceOK P (run argv env) := by
  unfold run main
  simp only []
  split
  · exact traceOK_nil P
  · have h := tryBlock_traceOK P env argv (startWorld env) rfl hfile hlock hpath hlaunch
    revert h
    generalize tryBlock env argv (startWorld env) = res
    intro h
    rcases res with ⟨w, r⟩
    cases r with
    | ok v => exact h
    | error e =>
      simp only [catchWin32Error, cerr, oscall_trace, traceOK_snoc]
      exact ⟨h, hfmt _ _ _ rfl⟩

theorem main_usage (argv : List String) (env : Env) (h : argv.length < 3) :
    main argv env = ⟨cerr usageText (startWorld env), none, 1⟩ := by
  simp [main, h]

theorem main_raised (argv : List String) (env : Env) (h : 3 ≤ argv.length) :
    (main argv env).raised = match (tryBlock env argv (startWorld env)).2 with
      | .ok _ => none
      | .error e => some e := by
  have h3 : ¬ argv.length < 3 := by omega
  simp only [main, h3, if_false]
  rcases tryBlock env argv (startWorld env) with ⟨w, r⟩
  cases r <;> rfl

theorem main_exit (argv : List String) (env : Env) (h : 3 ≤ argv.length) :
    (main argv env).exit = match (tryBlock env argv (startWorld env)).2 with
      | .ok r => r
      | .error e => toInt32 e.errorCode := by
  have h3 : ¬ argv.length < 3 := by omega
  simp only [main, h3, if_false]
  rcases tryBlock env argv (startWorld env) with ⟨w, r⟩
  cases r <;> rfl

theorem run_eq (argv : List String) (env : Env) (h : 3 ≤ argv.length) :
    ∃ tail, run argv env = (tryBlock env argv (startWorld env)).1.trace ++ tail ∧
      ∀ x ∈ tail, x.call.isFormatMessageA = true := by
  have h3 : ¬ argv.length < 3 := by omega
  simp only [run, main, h3, if_false]
  rcases tryBlock env argv (startWorld env) with ⟨w, r⟩
  cases r with
  | ok v => exact ⟨[], by simp, by simp⟩
  | error e =>
    exact ⟨[⟨.FormatMessageA e.errorCode, env.formatMessageA.ok,
      (oscall (.FormatMessageA e.errorCode) env.formatMessageA w).lastError⟩],
      by simp only [catchWin32Error, cerr, oscall_trace], by simp [Call.isFormatMessageA]⟩

theorem lockAttempts_append_formatMessage (t tail : List Event)
    (h : ∀ x ∈ tail, x.call.isFormatMessageA = true) :
    lockAttempts (t ++ tail) = lockAttempts t := by
  have h0 : List.countP (fun x => x.call == .LockFileEx) tail = 0 := by
    rw [List.countP_eq_zero]
    intro x hx
    have := h x hx
    cases hc : x.call <;> simp_all [Call.isFormatMessageA]
  simp [lockAttempts, List.countP_append, h0]

theorem toInt32_ne_zero (c : Nat) (h : c < DWORD_SIZE) (h0 : c ≠ 0) : toInt32 c ≠ 0 := by
  unfold toInt32
  rw [Nat.mod_eq_of_lt h]
  unfold DWORD_SIZE at *
  split <;> omega

theorem tryBlock_errorCode_lt (env : Env) (argv : List String) (w : World) (e : Win32Error)
    (hw : w.lastError < DWORD_SIZE) (h : (tryBlock env argv w).2 = .error e) :
    e.errorCode < DWORD_SIZE := by
  have h1 := oscall_lastError_lt (.CreateFileA (argv.getD 1 "")) env.createFileA w hw
  have h2 := lockLoop_lastError_lt env 3 0 _ h1
  revert h
  unfold tryBlock
  simp only []
  split
  · intro h
    cases h
    exact h1
  · revert h2
    generalize lockLoop env 3 0 (oscall (.CreateFileA (argv.getD 1 "")) env.createFileA w) = res
    intro h2
    rcases res with ⟨w2, r⟩
    cases r with
    | error e2 =>
      intro h
      exact h2.2 e (by simpa using h)
    | ok b =>
      cases b with
      | false =>
        intro h
        cases h
        decide
      | true =>
        simp only [Bool.not_true, Bool.false_eq_true, if_false]
        split
        · intro h
          cases h
          simp only [GetLastError]
          exact oscall_lastError_lt _ _ w2 h2.1
        · intro h
          exact launchAndWait_errorCode_lt env _ _ _ e (oscall_lastError_lt _ _ w2 h2.1) h

/-! ## Further facts used by the claims -/

theorem launchAndWait_take (env : Env) (exe cl : String) (w : World) :
    (launchAndWait env exe cl w).1.trace.take w.trace.length = w.trace := by
  unfold launchAndWait
  simp only []
  repeat' split
  all_goals simp only [oscall_trace, List.append_assoc]
  all_goals exact List.take_left _ _

theorem launchAndWait_extends (env : Env) (exe cl : String) (w : World) :
    ∃ evs, (launchAndWait env exe cl w).1.trace = w.trace ++ evs := by
  refine ⟨(launchAndWait env exe cl w).1.trace.drop w.trace.length, ?_⟩
  conv_lhs => rw [← List.take_append_drop w.trace.length (launchAndWait env exe cl w).1.trace]
  rw [launchAndWait_take]

theorem lockLoop_transient_then_ok (env : Env) (n i k : Nat) (w : World) (hk : k < n)
    (hfail : ∀ m, m < k → failsWith (env.lockFileEx (i + m)) ERROR_NETNAME_DELETED)
    (hok : (env.lockFileEx (i + k)).ok = true) :
    ∃ w2 evs, lockLoop env n i w = (w2, .ok true) ∧ w2.trace = w.trace ++ evs ∧
      evs.length = k + 1 ∧ lockAttempts evs = k + 1 := by
  induction n generalizing i k w with
  | zero => omega
  | succ n ih =>
    cases k with
    | zero =>
      have hok0 : (env.lockFileEx i).ok = true := by simpa using hok
      exact ⟨oscall .LockFileEx (env.lockFileEx i) w,
        [⟨.LockFileEx, (env.lockFileEx i).ok, (oscall .LockFileEx (env.lockFileEx i) w).lastError⟩],
        by simp only [lockLoop, hok0, if_true], oscall_trace _ _ _, rfl, by simp [lockAttempts]⟩
    | succ k =>
      obtain ⟨a0, b0⟩ : failsWith (env.lockFileEx i) ERROR_NETNAME_DELETED := by
        simpa using hfail 0 (by omega)
      obtain ⟨w2, evs, h1, h2, h3, h4⟩ := ih (i + 1) k
        (oscall .LockFileEx (env.lockFileEx i) w) (by omega)
        (fun m hm => by
          have := hfail (m + 1) (by omega)
          rwa [show i + (m + 1) = i + 1 + m by omega] at this)
        (by rwa [show i + (k + 1) = i + 1 + k by omega] at hok)
      refine ⟨w2, ⟨.LockFileEx, (env.lockFileEx i).ok,
        (oscall .LockFileEx (env.lockFileEx i) w).lastError⟩ :: evs, ?_, ?_, ?_, ?_⟩
      · have hle : GetLastError (oscall .LockFileEx (env.lockFileEx i) w)
            = ERROR_NETNAME_DELETED := by
          simp [GetLastError, oscall, b0, ERROR_NETNAME_DELETED, DWORD_SIZE]
        simp only [lockLoop, a0, hle, h1]
        simp
      · rw [h2, oscall_trace]
        simp
      · simp [h3]
      · simp only [lockAttempts] at h4 ⊢
        simp [List.countP_cons, h4]

theorem tryBlock_of_locked (env : Env) (argv : List String) (w w2 : World)
    (hopen : env.createFileA.ok = true)
    (hlock : lockLoop env 3 0 (oscall (.CreateFileA (argv.getD 1 "")) env.createFileA w)
      = (w2, .ok true)) :
    tryBlock env argv w =
      if !env.pathSearchAndQualifyA.ok then
        (oscall (.PathSearchAndQualifyA (enforceExeExtension (argv.getD 2 "")))
            env.pathSearchAndQualifyA w2,
          .error ⟨"PathSearchAndQualifyA",
            GetLastError (oscall (.PathSearchAndQualifyA (enforceExeExtension (argv.getD 2 "")))
              env.pathSearchAndQualifyA w2)⟩)
      else
        launchAndWait env env.qualifiedPath (buildCommandLine env.qualifiedPath argv)
          (oscall (.PathSearchAndQualifyA (enforceExeExtension (argv.getD 2 "")))
            env.pathSearchAndQualifyA w2) := by
  simp only [tryBlock, hopen, hlock, Bool.not_true, Bool.false_eq_true, if_false]

theorem findFirstOfFrom_eq_none (chars s : List Char) (pos : Nat) :
    findFirstOfFrom chars s pos = none ↔ ∀ c ∈ s, c ∉ chars := by
  induction s generalizing pos with
  | nil => simp [findFirstOfFrom]
  | cons d rest ih =>
    simp only [findFirstOfFrom, List.mem_cons, forall_eq_or_imp]
    by_cases hd : d ∈ chars
    · simp [hd]
    · simp [hd, ih]

theorem find_first_of_space_tab (token : String) :
    find_first_of token " \t" ≠ none ↔ ∃ c ∈ token.data, c = ' ' ∨ c = '\t' := by
  unfold find_first_of
  rw [Ne, findFirstOfFrom_eq_none]
  have hd : " \t".data = [' ', '\t'] := rfl
  rw [hd]
  constructor
  · intro h
    by_contra hno
    apply h
    intro c hc hmem
    apply hno
    refine ⟨c, hc, ?_⟩
    simpa using hmem
  · rintro ⟨c, hc, hor⟩ h
    exact h c hc (by simpa using hor)

theorem wrapInQuotes_ne (token : String) : wrapInQuotes token ≠ token := by
  intro h
  have := congrArg String.length h
  have h1 : "\"".length = 1 := rfl
  simp only [wrapInQuotes, String.length_append, h1] at this
  omega

theorem tryBlock_ok_zero (env : Env) (argv : List String) (w : World) (r : Int)
    (h : (tryBlock env argv w).2 = .ok r) : r = 0 := by
  revert h
  unfold tryBlock
  simp only []
  split
  · intro h
    cases h
  · rcases lockLoop env 3 0 (oscall (.CreateFileA (argv.getD 1 "")) env.createFileA w)
      with ⟨w2, res⟩
    cases res with
    | error e =>
      intro h
      cases h
    | ok b =>
      cases b with
      | false =>
        intro h
        cases h
      | true =>
        simp only [Bool.not_true, Bool.false_eq_true, if_false]
        split
        · intro h
          cases h
        · intro h
          exact launchAndWait_ok_zero env _ _ _ r h

theorem main_exit_zero_of_no_error (argv : List String) (env : Env) (h : 3 ≤ argv.length)
    (hr : (main argv env).raised = none) : (main argv env).exit = 0 := by
  rw [main_raised argv env h] at hr
  rw [main_exit argv env h]
  have hz := tryBlock_ok_zero env argv (startWorld env)
  revert hr hz
  cases (tryBlock env argv (startWorld env)).2 with
  | error e =>
    intro hr
    cases hr
  | ok v =>
    intro _ hz
    exact hz v rfl

/-! ## The code carried by a raised error -/

theorem oscall_lastError_ne_zero (c : Call) (r : Reply) (w : World) (hok : r.ok = false)
    (h : r.okOrNonzero = true) : (oscall c r w).lastError ≠ 0 := by
  unfold Reply.okOrNonzero at h
  unfold oscall
  cases hs : r.setsLastError with
  | none => simp [hok, hs] at h
  | some code => simpa [hok, hs] using h

theorem oscall_endsWithFailure (c : Call) (r : Reply) (w : World) (hok : r.ok = false) :
    EndsWithFailure (oscall c r w) (oscall c r w).lastError :=
  ⟨w.trace, ⟨c, r.ok, (oscall c r w).lastError⟩, oscall_trace c r w, hok, rfl⟩

theorem lockLoop_error_endsWithFailure (env : Env) (n i : Nat) (w : World) (e : Win32Error)
    (h : (lockLoop env n i w).2 = .error e) :
    EndsWithFailure (lockLoop env n i w).1 e.errorCode := by
  induction n generalizing i w with
  | zero => simp [lockLoop] at h
  | succ n ih =>
    revert h
    simp only [lockLoop]
    split
    · intro h
      cases h
    · rename_i hok
      split
      · intro h
        cases h
        exact oscall_endsWithFailure _ _ _ (by simpa using hok)
      · intro h
        exact ih _ _ h

theorem lockLoop_exhausted_of_ends (env : Env) (n i : Nat) (w : World)
    (hw : EndsWithFailure w ERROR_NETNAME_DELETED)
    (h : (lockLoop env n i w).2 = .ok false) :
    EndsWithFailure (lockLoop env n i w).1 ERROR_NETNAME_DELETED := by
  induction n generalizing i w with
  | zero => simpa [lockLoop] using hw
  | succ n ih =>
    revert h
    simp only [lockLoop]
    split
    · intro h
      cases h
    · rename_i hok
      split
      · intro h
        cases h
      · rename_i hcode
        intro h
        apply ih _ _ _ h
        have hc : (oscall .LockFileEx (env.lockFileEx i) w).lastError = ERROR_NETNAME_DELETED := by
          simpa [GetLastError] using hcode
        rw [← hc]
        exact oscall_endsWithFailure _ _ _ (by simpa using hok)

theorem lockLoop_exhausted_endsWithFailure (env : Env) (n i : Nat) (w : World)
    (h : (lockLoop env (n + 1) i w).2 = .ok false) :
    EndsWithFailure (lockLoop env (n + 1) i w).1 ERROR_NETNAME_DELETED := by
  revert h
  simp only [lockLoop]
  split
  · intro h
    cases h
  · rename_i hok
    split
    · intro h
      cases h
    · rename_i hcode
      intro h
      apply lockLoop_exhausted_of_ends _ _ _ _ _ h
      have hc : (oscall .LockFileEx (env.lockFileEx i) w).lastError = ERROR_NETNAME_DELETED := by
        simpa [GetLastError] using hcode
      rw [← hc]
      exact oscall_endsWithFailure _ _ _ (by simpa using hok)

theorem lockLoop_errorCode_ne_zero (env : Env) (n i : Nat) (w : World) (e : Win32Error)
    (hcodes : ∀ j, j < i + n → (env.lockFileEx j).okOrNonzero = true)
    (h : (lockLoop env n i w).2 = .error e) : e.errorCode ≠ 0 := by
  induction n generalizing i w with
  | zero => simp [lockLoop] at h
  | succ n ih =>
    revert h
    simp only [lockLoop]
    split
    · intro h
      cases h
    · rename_i hok
      split
      · intro h
        cases h
        exact oscall_lastError_ne_zero .LockFileEx (env.lockFileEx i) w (by simpa using hok)
          (hcodes i (by omega))
      · intro h
        exact ih (i + 1) _ (fun j hj => hcodes j (by omega)) h

theorem launchAndWait_endsWithFailure (env : Env) (exe cl : String) (w : World)
    (e : Win32Error) (h : (launchAndWait env exe cl w).2 = .error e)
    (hne : e.what ≠ "SetInformationJobObject") :
    EndsWithFailure (launchAndWait env exe cl w).1 e.errorCode := by
  revert h hne
  unfold launchAndWait
  simp only []
  repeat' split
  all_goals intro h hne
  all_goals cases h
  all_goals first
    | exact absurd rfl hne
    | exact oscall_endsWithFailure _ _ _ (by simp_all)

theorem launchAndWait_errorCode_ne_zero (env : Env) (exe cl : String) (w : World)
    (e : Win32Error) (hcodes : FailuresStoreNonzero env)
    (h : (launchAndWait env exe cl w).2 = .error e)
    (hne : e.what ≠ "SetInformationJobObject") : e.errorCode ≠ 0 := by
  obtain ⟨_, _, _, c1, c2, c4, c5, c6, c7, c8, c9⟩ := hcodes
  revert h hne
  unfold launchAndWait
  simp only []
  repeat' split
  all_goals intro h hne
  all_goals cases h
  all_goals first
    | exact absurd rfl hne
    | (simp only [GetLastError]
       apply oscall_lastError_ne_zero
       · simp_all
       · assumption)

theorem tryBlock_endsWithFailure (env : Env) (argv : List String) (w : World)
    (e : Win32Error) (h : (tryBlock env argv w).2 = .error e)
    (hne : e.what ≠ "SetInformationJobObject") :
    EndsWithFailure (tryBlock env argv w).1 e.errorCode := by
  have hE := lockLoop_error_endsWithFailure env 3 0
    (oscall (.CreateFileA (argv.getD 1 "")) env.createFileA w)
  have hX := lockLoop_exhausted_endsWithFailure env 2 0
    (oscall (.CreateFileA (argv.getD 1 "")) env.createFileA w)
  revert h hne
  unfold tryBlock
  simp only []
  split
  · rename_i hok
    intro h hne
    cases h
    exact oscall_endsWithFailure _ _ _ (by simpa using hok)
  · revert hE hX
    generalize lockLoop env 3 0 (oscall (.CreateFileA (argv.getD 1 "")) env.createFileA w) = res
    intro hE hX
    rcases res with ⟨w2, r⟩
    cases r with
    | error e2 =>
      intro h hne
      cases h
      exact hE e rfl
    | ok b =>
      cases b with
      | false =>
        intro h hne
        cases h
        exact hX rfl
      | true =>
        simp only [Bool.not_true, Bool.false_eq_true, if_false]
        split
        · rename_i hok
          intro h hne
          cases h
          exact oscall_endsWithFailure _ _ _ (by simpa using hok)
        · intro h hne
          exact launchAndWait_endsWithFailure env _ _ _ e h hne

theorem tryBlock_errorCode_ne_zero (env : Env) (argv : List String) (w : World)
    (e : Win32Error) (hcodes : FailuresStoreNonzero env)
    (h : (tryBlock env argv w).2 = .error e)
    (hne : e.what ≠ "SetInformationJobObject") : e.errorCode ≠ 0 := by
  have hL := lockLoop_errorCode_ne_zero env 3 0
    (oscall (.CreateFileA (argv.getD 1 "")) env.createFileA w)
  revert h hne
  unfold tryBlock
  simp only []
  split
  · rename_i hok
    intro h hne
    cases h
    exact oscall_lastError_ne_zero (.CreateFileA (argv.getD 1 "")) env.createFileA w
      (by simpa using hok) hcodes.1
  · revert hL
    generalize lockLoop env 3 0 (oscall (.CreateFileA (argv.getD 1 "")) env.createFileA w) = res
    intro hL
    rcases res with ⟨w2, r⟩
    cases r with
    | error e2 =>
      intro h hne
      cases h
      exact hL e (fun j hj => hcodes.2.1 j (by omega)) rfl
    | ok b =>
      cases b with
      | false =>
        intro h hne
        cases h
        decide
      | true =>
        simp only [Bool.not_true, Bool.false_eq_true, if_false]
        split
        · rename_i hok
          intro h hne
          cases h
          exact oscall_lastError_ne_zero
            (.PathSearchAndQualifyA (enforceExeExtension (argv.getD 2 "")))
            env.pathSearchAndQualifyA w2 (by simpa using hok) hcodes.2.2.1
        · intro h hne
          exact launchAndWait_errorCode_ne_zero env _ _ _ e hcodes h hne

theorem run_of_error (argv : List String) (env : Env) (h : 3 ≤ argv.length) (e : Win32Error)
    (he : (tryBlock env argv (startWorld env)).2 = .error e) :
    ∃ fm, run argv env = (tryBlock env argv (startWorld env)).1.trace ++ [fm] ∧
      fm.call = .FormatMessageA e.errorCode := by
  have h3 : ¬ argv.length < 3 := by omega
  revert he
  simp only [run, main, h3, if_false]
  rcases tryBlock env argv (startWorld env) with ⟨w, r⟩
  cases r with
  | ok v =>
    intro he
    cases he
  | error e2 =>
    intro he
    cases he
    exact ⟨⟨.FormatMessageA e.errorCode, env.formatMessageA.ok,
      (oscall (.FormatMessageA e.errorCode) env.formatMessageA w).lastError⟩,
      by simp only [catchWin32Error, cerr, oscall_trace], rfl⟩

theorem main_raised_iff (argv : List String) (env : Env) (h : 3 ≤ argv.length) (e : Win32Error) :
    (main argv env).raised = some e ↔ (tryBlock env argv (startWorld env)).2 = .error e := by
  rw [main_raised argv env h]
  cases (tryBlock env argv (startWorld env)).2 with
  | ok v => simp
  | error e2 => simp

/-! ## The claims -/

/-- C1 fails on the code: every call succeeds, the child exits with 7 and its
exit status is retrieved, yet `main` returns 0. -/
theorem C1_child_exit_code_dropped :
    (main argvExample (envAllOk 7)).raised = none ∧
      statusRetrieved (run argvExample (envAllOk 7)) = true ∧
      (envAllOk 7).exitCode = 7 ∧
      (main argvExample (envAllOk 7)).exit = 0 := by
  decide

/-- C2: in every run, an event of the life of the child (its creation, its
resumption, the wait, the retrieval of the exit status) comes after a
successful `LockFileEx` and after no release of the lock, and `UnlockFileEx` or
`CloseHandle` on the lock file comes after the wait has returned and the exit
status has been retrieved. -/
theorem C2_lock_held_over_protected_region (argv : List String) (env : Env)
    (pre post : List Event) (e : Event) (h : run argv env = pre ++ e :: post) :
    (e.inChildRegion = true → lockHeld pre = true ∧ noRelease pre = true) ∧
    (e.isRelease = true → waited pre = true ∧ statusRetrieved pre = true) := by
  have key : TraceOK LockHeldAt (run argv env) := by
    apply run_traceOK
    · intro pre e name hc
      simp [LockHeldAt, Event.inChildRegion, Event.isRelease, Call.isCreateProcessA, hc]
    · intro pre e hc
      simp [LockHeldAt, Event.inChildRegion, Event.isRelease, Call.isCreateProcessA, hc]
    · intro pre e path hc
      simp [LockHeldAt, Event.inChildRegion, Event.isRelease, Call.isCreateProcessA, hc]
    · intro pre e code hc
      simp [LockHeldAt, Event.inChildRegion, Event.isRelease, Call.isCreateProcessA, hc]
    · intro exe cl w1 h0 h1 h2
      exact launchAndWait_lockHeld env exe cl w1 h0 h1 h2
  exact key pre e post h

/-- C2 at a concrete run: the lock is taken at the third attempt, and the
event looked at is the `UnlockFileEx`. -/
theorem C2_lock_held_over_protected_region_witness :
    run argvExample envLockThird
        = (run argvExample envLockThird).take 15 ++ ⟨.UnlockFileEx, true, 64⟩
          :: (run argvExample envLockThird).drop 16 ∧
      (((Event.mk .UnlockFileEx true 64).inChildRegion = true →
        lockHeld ((run argvExample envLockThird).take 15) = true ∧
        noRelease ((run argvExample envLockThird).take 15) = true) ∧
      ((Event.mk .UnlockFileEx true 64).isRelease = true →
        waited ((run argvExample envLockThird).take 15) = true ∧
        statusRetrieved ((run argvExample envLockThird).take 15) = true)) :=
  ⟨by decide, C2_lock_held_over_protected_region argvExample envLockThird
    ((run argvExample envLockThird).take 15) ((run argvExample envLockThird).drop 16)
    ⟨.UnlockFileEx, true, 64⟩ (by decide)⟩

/-- C3 as stated fails: when `AssignProcessToJobObject` is refused with
`ERROR_ACCESS_DENIED` the child is resumed without being a member of the job. -/
theorem C3_resumed_without_membership :
    ¬ ∀ pre e post, run argvExample envAccessDenied = pre ++ e :: post → GroupBoundAt pre e := by
  intro h
  have h1 := h ((run argvExample envAccessDenied).take 10) ⟨.ResumeThread, true, 5⟩
    ((run argvExample envAccessDenied).drop 11) (by decide) rfl
  exact absurd h1.2.2.2 (by decide)

/-- C3 amended: in every run, before a `ResumeThread` the child was created
suspended, the job was created and configured with kill-on-close, and
`AssignProcessToJobObject` was called and either succeeded or failed with
`ERROR_ACCESS_DENIED`. -/
theorem C3_group_bound_before_resume (argv : List String) (env : Env)
    (pre post : List Event) (e : Event) (h : run argv env = pre ++ e :: post)
    (hresume : e.call = .ResumeThread) :
    createdSuspended pre = true ∧ groupCreated pre = true ∧ groupConfigured pre = true
      ∧ attachedOrDenied pre = true := by
  have key : TraceOK GroupAttemptedAt (run argv env) := by
    apply run_traceOK
    · intro pre e name hc
      simp [GroupAttemptedAt, hc]
    · intro pre e hc
      simp [GroupAttemptedAt, hc]
    · intro pre e path hc
      simp [GroupAttemptedAt, hc]
    · intro pre e code hc
      simp [GroupAttemptedAt, hc]
    · intro exe cl w1 h0 _ _
      exact launchAndWait_groupAttempted env exe cl w1 h0
  exact key pre e post h hresume

/-- C3 amended at the run in which the attachment is refused. -/
theorem C3_group_bound_before_resume_witness :
    run argvExample envAccessDenied
        = (run argvExample envAccessDenied).take 10 ++ ⟨.ResumeThread, true, 5⟩
          :: (run argvExample envAccessDenied).drop 11 ∧
      (createdSuspended ((run argvExample envAccessDenied).take 10) = true ∧
        groupCreated ((run argvExample envAccessDenied).take 10) = true ∧
        groupConfigured ((run argvExample envAccessDenied).take 10) = true ∧
        attachedOrDenied ((run argvExample envAccessDenied).take 10) = true) :=
  ⟨by decide, C3_group_bound_before_resume argvExample envAccessDenied
    ((run argvExample envAccessDenied).take 10) ((run argvExample envAccessDenied).drop 11)
    ⟨.ResumeThread, true, 5⟩ (by decide) rfl⟩

/-- C4: when the lock file opens and `LockFileEx` fails with
`ERROR_NETNAME_DELETED` at each of the three attempts, exactly three attempts
are made, a `LockFileEx` error carrying `ERROR_NETNAME_DELETED` is raised,
`main` returns that code, and no `CreateProcessA` is called. -/
theorem C4_transient_failure_exhausts_retries (argv : List String) (env : Env)
    (hargs : 3 ≤ argv.length) (hopen : env.createFileA.ok = true)
    (hfail : ∀ i, i < 3 → failsWith (env.lockFileEx i) ERROR_NETNAME_DELETED) :
    lockAttempts (run argv env) = 3 ∧
      (main argv env).raised = some ⟨"LockFileEx", ERROR_NETNAME_DELETED⟩ ∧
      (main argv env).exit = (ERROR_NETNAME_DELETED : Int) ∧
      spawned (run argv env) = false := by
  have h3 : ¬ argv.length < 3 := by omega
  obtain ⟨a0, b0⟩ := hfail 0 (by decide)
  obtain ⟨a1, b1⟩ := hfail 1 (by decide)
  obtain ⟨a2, b2⟩ := hfail 2 (by decide)
  simp [run, main, startWorld, tryBlock, lockLoop, catchWin32Error, oscall, GetLastError, cerr,
      h3, hopen,
    a0, b0, a1, b1, a2, b2, ERROR_NETNAME_DELETED, DWORD_SIZE, lockAttempts, spawned,
    Call.isCreateProcessA, toInt32]

/-- C4 at a concrete run. -/
theorem C4_transient_failure_exhausts_retries_witness :
    lockAttempts (run argvExample envLockExhausted) = 3 ∧
      (main argvExample envLockExhausted).raised = some ⟨"LockFileEx", ERROR_NETNAME_DELETED⟩ ∧
      (main argvExample envLockExhausted).exit = (ERROR_NETNAME_DELETED : Int) ∧
      spawned (run argvExample envLockExhausted) = false :=
  C4_transient_failure_exhausts_retries argvExample envLockExhausted (by decide) (by decide)
    (fun _ _ => ⟨rfl, rfl⟩)

/-- C5 as stated fails: the lock file is created afresh, which leaves 0 as
the last-error value, `PathSearchAndQualifyA` fails without storing a code,
and `main` returns 0 although an error was raised. -/
theorem C5_failure_with_exit_code_zero :
    (main argvExample envPathNotFound).raised = some ⟨"PathSearchAndQualifyA", 0⟩ ∧
      ¬ (main argvExample envPathNotFound).exit ≠ 0 := by
  decide

/-- C5 amended: in a run whose failing calls store a last-error code other
than 0, when the usage check fails or a `Win32Error` is raised for an
operation other than `SetInformationJobObject`, the value returned by `main`
is not 0.  It is 1 for the usage failure; otherwise it is the code carried by
the error, and that code is the last-error value left by the failing call,
which is the last call made before the handler. -/
theorem C5_failure_exit_code_nonzero (argv : List String) (env : Env)
    (hcodes : FailuresStoreNonzero env)
    (hfail : argv.length < 3 ∨
      ∃ e, (main argv env).raised = some e ∧ e.what ≠ "SetInformationJobObject") :
    (main argv env).exit ≠ 0 ∧
    (argv.length < 3 → (main argv env).exit = 1) ∧
    (∀ e, (main argv env).raised = some e → e.what ≠ "SetInformationJobObject" →
      (main argv env).exit = toInt32 e.errorCode ∧
      ∃ pre last fm, run argv env = pre ++ [last, fm] ∧ last.ok = false ∧
        last.lastError = e.errorCode ∧ fm.call = .FormatMessageA e.errorCode) := by
  by_cases h3 : argv.length < 3
  · refine ⟨by simp [main_usage argv env h3], fun _ => by simp [main_usage argv env h3], ?_⟩
    intro e he
    simp [main_usage argv env h3] at he
  · have hargs : 3 ≤ argv.length := by omega
    have hexit : ∀ e, (main argv env).raised = some e →
        (main argv env).exit = toInt32 e.errorCode := by
      intro e he
      rw [main_raised_iff argv env hargs] at he
      rw [main_exit argv env hargs, he]
    refine ⟨?_, fun h => absurd h h3, ?_⟩
    · rcases hfail with h | ⟨e, he, hne⟩
      · exact absurd h h3
      · rw [hexit e he]
        rw [main_raised_iff argv env hargs] at he
        exact toInt32_ne_zero _
          (tryBlock_errorCode_lt env argv (startWorld env) e (Nat.mod_lt _ (by decide)) he)
          (tryBlock_errorCode_ne_zero env argv (startWorld env) e hcodes he hne)
    · intro e he hne
      refine ⟨hexit e he, ?_⟩
      rw [main_raised_iff argv env hargs] at he
      obtain ⟨pre, last, htr, hok, hcode⟩ :=
        tryBlock_endsWithFailure env argv (startWorld env) e he hne
      obtain ⟨fm, hrun, hfm⟩ := run_of_error argv env hargs e he
      exact ⟨pre, last, fm, by rw [hrun, htr]; simp, hok, hcode, hfm⟩

/-- C5 amended at a concrete run: the second lock attempt fails with code 33. -/
theorem C5_failure_exit_code_nonzero_witness :
    FailuresStoreNonzero envLockViolation ∧
    (argvExample.length < 3 ∨ ∃ e, (main argvExample envLockViolation).raised = some e ∧
      e.what ≠ "SetInformationJobObject") ∧
    ((main argvExample envLockViolation).exit ≠ 0 ∧
      (argvExample.length < 3 → (main argvExample envLockViolation).exit = 1) ∧
      (∀ e, (main argvExample envLockViolation).raised = some e →
        e.what ≠ "SetInformationJobObject" →
        (main argvExample envLockViolation).exit = toInt32 e.errorCode ∧
        ∃ pre last fm, run argvExample envLockViolation = pre ++ [last, fm] ∧ last.ok = false ∧
          last.lastError = e.errorCode ∧ fm.call = .FormatMessageA e.errorCode)) :=
  have hcodes : FailuresStoreNonzero envLockViolation :=
    ⟨by decide, by decide, by decide, by decide, by decide, by decide, by decide, by decide,
      by decide, by decide, by decide⟩
  have hfail : argvExample.length < 3 ∨ ∃ e, (main argvExample envLockViolation).raised = some e ∧
      e.what ≠ "SetInformationJobObject" :=
    Or.inr ⟨⟨"LockFileEx", 33⟩, by decide, by decide⟩
  ⟨hcodes, hfail, C5_failure_exit_code_nonzero argvExample envLockViolation hcodes hfail⟩

/-- C6: when the lock file opens and `LockFileEx` fails with
`ERROR_NETNAME_DELETED` at `k` attempts (`k` being 0, 1 or 2) and then
succeeds, exactly `k + 1` lock attempts are made, no `LockFileEx` error is
raised, the call that follows the successful attempt is
`PathSearchAndQualifyA` on the executable name, and once it succeeds the child
is spawned, suspended, with the command line built from the arguments. -/
theorem C6_transient_failures_then_success (argv : List String) (env : Env) (k : Nat)
    (hargs : 3 ≤ argv.length) (hopen : env.createFileA.ok = true) (hk : k ≤ 2)
    (hfail : ∀ i, i < k → failsWith (env.lockFileEx i) ERROR_NETNAME_DELETED)
    (hok : (env.lockFileEx k).ok = true) :
    lockAttempts (run argv env) = k + 1 ∧
      (∀ e, (main argv env).raised = some e → e.what ≠ "LockFileEx") ∧
      ((run argv env)[k + 2]?).map Event.call
        = some (.PathSearchAndQualifyA (enforceExeExtension (argv.getD 2 ""))) ∧
      (env.pathSearchAndQualifyA.ok = true →
        spawnedWith env.qualifiedPath (buildCommandLine env.qualifiedPath argv) (run argv env)
          = true) := by
  obtain ⟨w2, evs, hloop, htr, hlen, hcnt⟩ := lockLoop_transient_then_ok env 3 0 k
    (oscall (.CreateFileA (argv.getD 1 "")) env.createFileA (startWorld env)) (by omega)
    (fun m hm => by simpa using hfail m hm) (by simpa using hok)
  have htb := tryBlock_of_locked env argv (startWorld env) w2 hopen hloop
  obtain ⟨tail, hrun, htail⟩ := run_eq argv env hargs
  have hw2 : w2.trace = ⟨.CreateFileA (argv.getD 1 ""), env.createFileA.ok,
      (oscall (.CreateFileA (argv.getD 1 "")) env.createFileA (startWorld env)).lastError⟩
        :: evs := by
    rw [htr, oscall_trace]
    simp [startWorld]
  have hraised := main_raised argv env hargs
  rw [hrun, lockAttempts_append_formatMessage _ _ htail, hraised]
  rw [htb]
  cases hp : env.pathSearchAndQualifyA.ok with
  | false =>
    simp only [Bool.not_false, if_true]
    refine ⟨?_, ?_, ?_, ?_⟩
    · rw [oscall_trace, lockAttempts_snoc, hw2]
      simp only [lockAttempts] at hcnt ⊢
      simp [List.countP_cons, hcnt]
    · intro e he
      cases he
      simp
    · rw [oscall_trace, hw2]
      rw [List.getElem?_append_left (by simp [hlen])]
      rw [List.cons_append, show k + 2 = (k + 1) + 1 by omega, List.getElem?_cons_succ,
        List.getElem?_append_right (by omega)]
      simp [hlen]
    · intro h
      cases h
  | true =>
    simp only [Bool.not_true, Bool.false_eq_true, if_false]
    obtain ⟨evs2, hext⟩ := launchAndWait_extends env env.qualifiedPath
      (buildCommandLine env.qualifiedPath argv)
      (oscall (.PathSearchAndQualifyA (enforceExeExtension (argv.getD 2 "")))
        env.pathSearchAndQualifyA w2)
    refine ⟨?_, ?_, ?_, ?_⟩
    · rw [launchAndWait_lockAttempts, oscall_trace, lockAttempts_snoc, hw2]
      simp only [lockAttempts] at hcnt ⊢
      simp [List.countP_cons, hcnt]
    · intro e he
      apply launchAndWait_what env env.qualifiedPath (buildCommandLine env.qualifiedPath argv)
        (oscall (.PathSearchAndQualifyA (enforceExeExtension (argv.getD 2 "")))
          env.pathSearchAndQualifyA w2) e
      revert he
      cases (launchAndWait env env.qualifiedPath (buildCommandLine env.qualifiedPath argv)
        (oscall (.PathSearchAndQualifyA (enforceExeExtension (argv.getD 2 "")))
          env.pathSearchAndQualifyA w2)).2 with
      | ok v => intro he; cases he
      | error e2 => intro he; cases he; rfl
    · rw [hext, oscall_trace, hw2]
      rw [List.append_assoc, List.getElem?_append_left (by simp [hlen])]
      rw [List.cons_append, show k + 2 = (k + 1) + 1 by omega, List.getElem?_cons_succ,
        List.getElem?_append_right (by omega)]
      simp [hlen]
    · intro _
      have hs := launchAndWait_spawns env env.qualifiedPath
        (buildCommandLine env.qualifiedPath argv)
        (oscall (.PathSearchAndQualifyA (enforceExeExtension (argv.getD 2 "")))
          env.pathSearchAndQualifyA w2)
      simp only [spawnedWith, List.any_append, Bool.or_eq_true] at hs ⊢
      exact Or.inl hs

/-- C6 at a concrete run: two transient failures, then success. -/
theorem C6_transient_failures_then_success_witness :
    lockAttempts (run argvExample envLockThird) = 2 + 1 ∧
      (∀ e, (main argvExample envLockThird).raised = some e → e.what ≠ "LockFileEx") ∧
      ((run argvExample envLockThird)[2 + 2]?).map Event.call
        = some (.PathSearchAndQualifyA (enforceExeExtension (argvExample.getD 2 ""))) ∧
      (envLockThird.pathSearchAndQualifyA.ok = true →
        spawnedWith envLockThird.qualifiedPath
          (buildCommandLine envLockThird.qualifiedPath argvExample)
          (run argvExample envLockThird) = true) :=
  C6_transient_failures_then_success argvExample envLockThird 2 (by decide) (by decide)
    (by decide) (fun i hi => by
      have : i = 0 ∨ i = 1 := by omega
      rcases this with rfl | rfl <;> exact ⟨rfl, rfl⟩) (by decide)

/-- C7: when the lock file opens, the attempts before attempt `j` fail with
`ERROR_NETNAME_DELETED` and attempt `j` fails with another code `c`, no further
attempt is made, a `LockFileEx` error carrying `c` is raised, `main` returns
`c`, and no `CreateProcessA` is called. -/
theorem C7_other_lock_error_is_fatal (argv : List String) (env : Env) (j c : Nat)
    (hargs : 3 ≤ argv.length) (hopen : env.createFileA.ok = true) (hj : j < 3)
    (hprev : ∀ i, i < j → failsWith (env.lockFileEx i) ERROR_NETNAME_DELETED)
    (hfail : failsWith (env.lockFileEx j) c) (hc : c < DWORD_SIZE)
    (hne : c ≠ ERROR_NETNAME_DELETED) :
    lockAttempts (run argv env) = j + 1 ∧
      (main argv env).raised = some ⟨"LockFileEx", c⟩ ∧
      (main argv env).exit = toInt32 c ∧
      spawned (run argv env) = false := by
  have h3 : ¬ argv.length < 3 := by omega
  have hmod : c % 4294967296 = c := Nat.mod_eq_of_lt hc
  have hne2 : ¬ c = 64 := hne
  obtain ⟨aj, bj⟩ := hfail
  interval_cases j
  · simp [run, main, startWorld, tryBlock, lockLoop, catchWin32Error, oscall, GetLastError, cerr,
      h3, hopen,
      aj, bj, ERROR_NETNAME_DELETED, DWORD_SIZE, lockAttempts, spawned,
      Call.isCreateProcessA, hmod, hne2]
  · obtain ⟨a0, b0⟩ := hprev 0 (by decide)
    simp [run, main, startWorld, tryBlock, lockLoop, catchWin32Error, oscall, GetLastError, cerr,
      h3, hopen,
      aj, bj, a0, b0, ERROR_NETNAME_DELETED, DWORD_SIZE, lockAttempts, spawned,
      Call.isCreateProcessA, hmod, hne2]
  · obtain ⟨a0, b0⟩ := hprev 0 (by decide)
    obtain ⟨a1, b1⟩ := hprev 1 (by decide)
    simp [run, main, startWorld, tryBlock, lockLoop, catchWin32Error, oscall, GetLastError, cerr,
      h3, hopen,
      aj, bj, a0, b0, a1, b1, ERROR_NETNAME_DELETED, DWORD_SIZE, lockAttempts, spawned,
      Call.isCreateProcessA, hmod, hne2]

/-- C7 at a concrete run: the second attempt fails with code 33. -/
theorem C7_other_lock_error_is_fatal_witness :
    lockAttempts (run argvExample envLockViolation) = 1 + 1 ∧
      (main argvExample envLockViolation).raised = some ⟨"LockFileEx", 33⟩ ∧
      (main argvExample envLockViolation).exit = toInt32 33 ∧
      spawned (run argvExample envLockViolation) = false :=
  C7_other_lock_error_is_fatal argvExample envLockViolation 1 33 (by decide) (by decide)
    (by decide) (fun i hi => by
      have : i = 0 := by omega
      subst this
      exact ⟨rfl, rfl⟩) ⟨rfl, rfl⟩ (by decide) (by decide)

/-- C8: with fewer than two arguments after the program name, `main` returns
1, writes the usage text to standard error, raises no error and makes no call
into the operating system. -/
theorem C8_usage_error_makes_no_call (argv : List String) (env : Env)
    (h : argv.length < 3) :
    (main argv env).exit = 1 ∧ (main argv env).world.stderr = usageText ∧
      (main argv env).raised = none ∧ run argv env = [] := by
  simp [run, main_usage argv env h, cerr, startWorld]

/-- C8 at a concrete run: only the lock file is named. -/
theorem C8_usage_error_makes_no_call_witness :
    (main ["withlockfile", "build.lock"] (envAllOk 0)).exit = 1 ∧
      (main ["withlockfile", "build.lock"] (envAllOk 0)).world.stderr = usageText ∧
      (main ["withlockfile", "build.lock"] (envAllOk 0)).raised = none ∧
      run ["withlockfile", "build.lock"] (envAllOk 0) = [] :=
  C8_usage_error_makes_no_call ["withlockfile", "build.lock"] (envAllOk 0) (by decide)

/-- C9 as stated fails: the token `a\nb` contains a whitespace character, the
line feed, and `quoteArgument` returns it unchanged. -/
theorem C9_line_feed_is_not_quoted : ¬ QuotesIffWhitespace "a\nb" := by
  intro h
  have h1 : ∃ c ∈ "a\nb".data, c.isWhitespace = true := ⟨'\n', by decide, by decide⟩
  exact absurd (h.1.2 h1) (by decide)

/-- C9 amended: `quoteArgument` returns the token wrapped in double quotes
exactly when the token contains a space or a horizontal tab, and returns the
token unchanged exactly when it contains neither. -/
theorem C9_quotes_iff_space_or_tab (token : String) :
    (quoteArgument token = wrapInQuotes token ↔ ∃ c ∈ token.data, c = ' ' ∨ c = '\t') ∧
    (quoteArgument token = token ↔ ¬ ∃ c ∈ token.data, c = ' ' ∨ c = '\t') := by
  have key := find_first_of_space_tab token
  by_cases hf : find_first_of token " \t" = none
  · have hno : ¬ ∃ c ∈ token.data, c = ' ' ∨ c = '\t' := fun h => (key.2 h) hf
    have hq : quoteArgument token = token := by simp [quoteArgument, hf]
    rw [hq]
    exact ⟨⟨fun h => absurd h.symm (wrapInQuotes_ne token), fun h => absurd h hno⟩,
      ⟨fun _ => hno, fun _ => rfl⟩⟩
  · have hyes := key.1 hf
    have hq : quoteArgument token = wrapInQuotes token := by
      simp [quoteArgument, hf, wrapInQuotes]
    rw [hq]
    exact ⟨⟨fun _ => hyes, fun _ => rfl⟩,
      ⟨fun h => absurd h (wrapInQuotes_ne token), fun h => absurd hyes h⟩⟩

/-- C10 fails on the code: `SetInformationJobObject` fails with code 87, the
`CloseHandle` that follows resets the last-error value, and the error raised
for `SetInformationJobObject` carries 0, which `main` returns. -/
theorem C10_error_code_read_after_close :
    (⟨.SetInformationJobObject JOB_OBJECT_LIMIT_KILL_ON_JOB_CLOSE, false, 87⟩ : Event)
        ∈ run argvExample envConfigureFails ∧
      (main argvExample envConfigureFails).raised = some ⟨"SetInformationJobObject", 0⟩ ∧
      (main argvExample envConfigureFails).exit = 0 := by
  decide

end WithLockFile
